import Mathlib

/-!
Shallow embedding of the `term-xlsx` terminal spreadsheet editor
(`src/app.rs`, `src/ui.rs`) and proofs about its specified behaviour.

Modelling conventions:
* `u32`/`u16` quantities are modelled as `Nat`; `i32` movement deltas as `Int`
  (the dispatched deltas are only `-1`, `0`, `1`, far from overflow).
* Rust `HashMap`s whose absence of a key is observable are modelled as
  functions into `Option`; the spreadsheet cell collection is an association
  list keyed by `(row, col)` so that the highest used row/column and the
  cell iteration of mark loading are expressible.
* The external `umya_spreadsheet` style objects are modelled structurally
  (fill / pattern fill / foreground color / font color / number format),
  exactly as far as `app.rs` reads and writes them; the external helper
  `to_formatted_string` is an explicit function parameter where it occurs.
* Rust byte length of ASCII strings is modelled as character count.
-/

namespace TermXlsx

/-- `DEFAULT_COLUMN_WIDTH` from `app.rs`. -/
def DEFAULT_COLUMN_WIDTH : Nat := 10

/-- `COLUMN_WIDTH_STEP` from `app.rs`. -/
def COLUMN_WIDTH_STEP : Nat := 2

/-- `MAX_COLUMN_WIDTH` from `app.rs`. -/
def MAX_COLUMN_WIDTH : Nat := 50

/-- `MAX_COLUMNS` from `app.rs` (old XLS limit, A to IV). -/
def MAX_COLUMNS : Nat := 256

/-- `MAX_ROWS` from `app.rs` (old XLS limit). -/
def MAX_ROWS : Nat := 65536

/-- ASCII uppercase of one character (Rust `to_uppercase` restricted to the
ASCII color/format strings this program compares). -/
def asciiUpperChar (c : Char) : Char :=
  if 97 ≤ c.toNat ∧ c.toNat ≤ 122 then Char.ofNat (c.toNat - 32) else c

/-- ASCII lowercase of one character. -/
def asciiLowerChar (c : Char) : Char :=
  if 65 ≤ c.toNat ∧ c.toNat ≤ 90 then Char.ofNat (c.toNat + 32) else c

/-- Rust `str::to_uppercase` (ASCII model). -/
def strUpper (s : String) : String := ⟨s.data.map asciiUpperChar⟩

/-- Rust `str::to_lowercase` (ASCII model). -/
def strLower (s : String) : String := ⟨s.data.map asciiLowerChar⟩

/-- Interaction mode (`Mode` in `app.rs`). -/
inductive Mode where
  | view
  | edit
  | sheetSelect
deriving DecidableEq

/-- Selection range, `start`/`end` both 1-based `(row, col)` (`Selection` in `app.rs`;
the `end` field is called `endPos` because `end` is a Lean keyword). -/
structure Selection where
  start : Nat × Nat
  endPos : Nat × Nat
deriving DecidableEq

/-- `Selection::single`. -/
def Selection.single (row col : Nat) : Selection :=
  { start := (row, col), endPos := (row, col) }

/-- `Selection::bounds`: normalized `(min_row, min_col, max_row, max_col)`. -/
def Selection.bounds (s : Selection) : Nat × Nat × Nat × Nat :=
  (min s.start.1 s.endPos.1, min s.start.2 s.endPos.2,
   max s.start.1 s.endPos.1, max s.start.2 s.endPos.2)

/-- `Selection::contains`. -/
def Selection.containsCell (s : Selection) (row col : Nat) : Bool :=
  let (minRow, minCol, maxRow, maxCol) := s.bounds
  decide (minRow ≤ row ∧ row ≤ maxRow ∧ minCol ≤ col ∧ col ≤ maxCol)

/-- `Selection::is_single`. -/
def Selection.is_single (s : Selection) : Bool :=
  s.start = s.endPos

/-- Cell marking style (`CellMark` in `app.rs`). -/
inductive CellMark where
  | none
  | yellowBg
  | redText
  | greenText
  | blueBg
  | magentaText
deriving DecidableEq

/-- ARGB color of the external style object (only its `argb` string is read/written). -/
structure Color where
  argb : String
deriving DecidableEq

/-- Font part of the external style object: `font.get_color().get_argb()`. -/
structure Font where
  color : Color
deriving DecidableEq

/-- Pattern fill of the external style object. `umya_spreadsheet` defaults the
pattern type to `None` and has no foreground color until one is set. -/
inductive PatternValues where
  | patNone
  | patSolid
deriving DecidableEq

structure PatternFill where
  pattern_type : PatternValues
  fg_color : Option Color
deriving DecidableEq

structure Fill where
  pattern_fill : Option PatternFill
deriving DecidableEq

/-- Number format of the external style object: only `format_code` is read. -/
structure NumberingFormat where
  format_code : String
deriving DecidableEq

/-- The slice of the external style object that `app.rs` reads and writes. -/
structure Style where
  fill : Option Fill
  font : Option Font
  number_format : Option NumberingFormat
deriving DecidableEq

/-- Style of a fresh, never-styled cell. -/
def fresh_style : Style := { fill := none, font := none, number_format := none }

/-- A spreadsheet cell: raw stored value, formula source, style. -/
structure Cell where
  value : String
  formula : String
  style : Style
deriving DecidableEq

/-- `get_cell_value` on a missing cell yields an empty value/formula. -/
def defaultCell : Cell := { value := "", formula := "", style := fresh_style }

/-- A worksheet: its cell collection, keyed by `(row, col)` (both 1-based). -/
structure Worksheet where
  cells : List ((Nat × Nat) × Cell)
deriving DecidableEq

/-- Lookup in a cell collection (first matching key). -/
def cellsGet : List ((Nat × Nat) × Cell) → Nat × Nat → Option Cell
  | [], _ => Option.none
  | (k, c) :: rest, p => if k = p then some c else cellsGet rest p

/-- Insert-or-replace in a cell collection (replaces the first matching key). -/
def cellsSet : List ((Nat × Nat) × Cell) → Nat × Nat → Cell → List ((Nat × Nat) × Cell)
  | [], p, c => [(p, c)]
  | (k, c0) :: rest, p, c => if k = p then (p, c) :: rest else (k, c0) :: cellsSet rest p c

/-- Raw value of a cell, `""` when absent (`get_cell_value(...).get_value()`). -/
def wsGetValue (ws : Worksheet) (row col : Nat) : String :=
  ((cellsGet ws.cells (row, col)).map Cell.value).getD ""

/-- Formula of a cell, `""` when absent (`get_cell_value(...).get_formula()`). -/
def wsGetFormula (ws : Worksheet) (row col : Nat) : String :=
  ((cellsGet ws.cells (row, col)).map Cell.formula).getD ""

/-- `get_cell_mut(...).set_value(...)`: creates the cell when absent, keeps
formula and style of an existing cell. -/
def wsSetValue (ws : Worksheet) (row col : Nat) (v : String) : Worksheet :=
  let cell := (cellsGet ws.cells (row, col)).getD defaultCell
  ⟨cellsSet ws.cells (row, col) { cell with value := v }⟩

/-- `get_highest_row()` of a worksheet (0 when empty). -/
def highestRow (ws : Worksheet) : Nat :=
  ws.cells.foldl (fun a e => max a e.1.1) 0

/-- `get_highest_column()` of a worksheet (0 when empty). -/
def highestColumn (ws : Worksheet) : Nat :=
  ws.cells.foldl (fun a e => max a e.1.2) 0

/-- The whole editor state (`App` in `app.rs`). The external `Spreadsheet` is
its sheet list; `column_widths` and `cell_marks` are the two `HashMap`s. -/
structure App where
  path : String
  sheets : List Worksheet
  current_sheet_index : Nat
  cursor : Nat × Nat
  selection : Selection
  mode : Mode
  scroll : Nat × Nat
  textarea : List String
  should_quit : Bool
  column_widths : Nat → Option Nat
  clipboard : List (List String)
  status_message : Option String
  viewport_size : Nat × Nat
  cell_marks : Nat × Nat × Nat → Option CellMark
  sheet_select_index : Nat

/-- `argb_to_bg_mark` from `app.rs` (Rust `to_uppercase` on these ASCII strings
is plain ASCII uppercasing). -/
def argb_to_bg_mark (argb : String) : CellMark :=
  if strUpper argb = "FFFFFF00" ∨ strUpper argb = "FFFF00" ∨ strUpper argb = "FFFFEF00" then
    CellMark.yellowBg
  else if strUpper argb = "FF0000FF" ∨ strUpper argb = "0000FF" ∨ strUpper argb = "FF0000FE"
      ∨ strUpper argb = "FF00BFFF" ∨ strUpper argb = "00BFFF" then
    CellMark.blueBg
  else CellMark.none

/-- `argb_to_font_mark` from `app.rs`. -/
def argb_to_font_mark (argb : String) : CellMark :=
  if strUpper argb = "FFFF0000" ∨ strUpper argb = "FF0000" ∨ strUpper argb = "FFFF0001" then
    CellMark.redText
  else if strUpper argb = "FF008000" ∨ strUpper argb = "008000" ∨ strUpper argb = "FF008001"
      ∨ strUpper argb = "FF00FF00" ∨ strUpper argb = "00FF00" then
    CellMark.greenText
  else if strUpper argb = "FFFF00FF" ∨ strUpper argb = "FF00FF" ∨ strUpper argb = "FFFF00FE" then
    CellMark.magentaText
  else CellMark.none

/-- Loop body of `load_cell_marks_from_spreadsheet` for one cell: the background
pattern-fill foreground color is checked first; a background match short-circuits,
otherwise the font color is checked; unrecognized or absent colors give `none`. -/
def decode_cell_style (style : Style) : CellMark :=
  let bgMark : CellMark :=
    match style.fill with
    | some fill =>
      match fill.pattern_fill with
      | some pf =>
        match pf.fg_color with
        | some col => if col.argb ≠ "" then argb_to_bg_mark col.argb else CellMark.none
        | Option.none => CellMark.none
      | Option.none => CellMark.none
    | Option.none => CellMark.none
  if bgMark ≠ CellMark.none then bgMark
  else
    match style.font with
    | some f => if f.color.argb ≠ "" then argb_to_font_mark f.color.argb else CellMark.none
    | Option.none => CellMark.none

/-- `load_cell_marks_from_spreadsheet`: fold over all sheets and cells, inserting
only non-`None` decoded marks (as the Rust `HashMap` insert loop does). -/
def load_cell_marks_from_spreadsheet (sheets : List Worksheet) :
    Nat × Nat × Nat → Option CellMark :=
  sheets.enum.foldl
    (fun marks si_ws =>
      si_ws.2.cells.foldl
        (fun marks entry =>
          let mk := decode_cell_style entry.2.style
          if mk ≠ CellMark.none then
            fun key => if key = (si_ws.1, entry.1.1, entry.1.2) then some mk else marks key
          else marks)
        marks)
    (fun _ => Option.none)

/-- Style mutation of one cell inside `set_mark_for_selection`: `get_font_mut` /
`get_fill_mut().get_pattern_fill_mut()` create default parts when absent, then
the per-mark branch sets colors/pattern type exactly as in `app.rs` (note that
the `CellMark::None` branch sets only the pattern *type* to `None`, leaving any
previously set foreground color in place). -/
def apply_mark_style (mark : CellMark) (style : Style) : Style :=
  let font0 : Font := style.font.getD { color := { argb := "" } }
  let fill0 : Fill := style.fill.getD { pattern_fill := Option.none }
  let pf0 : PatternFill :=
    fill0.pattern_fill.getD { pattern_type := PatternValues.patNone, fg_color := Option.none }
  match mark with
  | CellMark.none =>
    { style with
      font := some { font0 with color := { argb := "FF000001" } },
      fill := some { fill0 with
        pattern_fill := some { pf0 with pattern_type := PatternValues.patNone } } }
  | CellMark.yellowBg =>
    { style with
      fill := some { fill0 with
        pattern_fill := some { pf0 with
          fg_color := some { argb := "FFFFEF00" },
          pattern_type := PatternValues.patSolid } },
      font := some { font0 with color := { argb := "FF000001" } } }
  | CellMark.redText =>
    { style with font := some { font0 with color := { argb := "FFFF0001" } } }
  | CellMark.greenText =>
    { style with font := some { font0 with color := { argb := "FF008001" } } }
  | CellMark.blueBg =>
    { style with
      fill := some { fill0 with
        pattern_fill := some { pf0 with
          fg_color := some { argb := "FF0000FE" },
          pattern_type := PatternValues.patSolid } },
      font := some { font0 with color := { argb := "FFFFFFFE" } } }
  | CellMark.magentaText =>
    { style with font := some { font0 with color := { argb := "FFFF00FE" } } }

/-- Status-line name of a mark (`mark_name` match in `set_mark_for_selection`). -/
def markName : CellMark → String
  | CellMark.none => "cleared"
  | CellMark.yellowBg => "yellow bg"
  | CellMark.redText => "red text"
  | CellMark.greenText => "green text"
  | CellMark.blueBg => "blue bg"
  | CellMark.magentaText => "magenta text"

/-- One iteration of the `set_mark_for_selection` double loop: update the mark
map (`remove` for `None`, `insert` otherwise) and restyle the cell. -/
def set_mark_cell (mark : CellMark) (sheet_idx : Nat)
    (st : ((Nat × Nat × Nat) → Option CellMark) × Worksheet) (rc : Nat × Nat) :
    ((Nat × Nat × Nat) → Option CellMark) × Worksheet :=
  let key : Nat × Nat × Nat := (sheet_idx, rc.1, rc.2)
  let marks := fun k =>
    if k = key then (if mark = CellMark.none then Option.none else some mark) else st.1 k
  let cell := (cellsGet st.2.cells rc).getD defaultCell
  let ws : Worksheet :=
    ⟨cellsSet st.2.cells rc { cell with style := apply_mark_style mark cell.style }⟩
  (marks, ws)

/-- `set_mark_for_selection` from `app.rs`. -/
def set_mark_for_selection (app : App) (mark : CellMark) : App :=
  let (min_row, min_col, max_row, max_col) := app.selection.bounds
  let sheet_idx := app.current_sheet_index
  match app.sheets.get? sheet_idx with
  | Option.none =>
    let msg := "Marked " ++ toString 0 ++ " cell(s): " ++ markName mark
    { app with status_message := some msg }
  | some ws =>
    let rcs : List (Nat × Nat) :=
      (List.range (max_row - min_row + 1)).flatMap
        (fun i => (List.range (max_col - min_col + 1)).map (fun j => (min_row + i, min_col + j)))
    let res := rcs.foldl (set_mark_cell mark sheet_idx) (app.cell_marks, ws)
    let count := (max_row - min_row + 1) * (max_col - min_col + 1)
    let msg := "Marked " ++ toString count ++ " cell(s): " ++ markName mark
    { app with
      cell_marks := res.1,
      sheets := app.sheets.set sheet_idx res.2,
      status_message := some msg }

/-- `get_cell_mark` from `app.rs`. -/
def get_cell_mark (app : App) (row col : Nat) : CellMark :=
  (app.cell_marks (app.current_sheet_index, row, col)).getD CellMark.none

/-- Rust `i32::clamp(lo, hi)` on mathematical integers. -/
def clampInt (x lo hi : Int) : Int := max lo (min hi x)

/-- `adjust_scroll` from `app.rs`: per-axis, back up when the cursor is at or
before the scroll offset, advance by the overshoot when it is past the last
visible row/column. -/
def adjust_scroll (app : App) : App :=
  let row := app.cursor.1
  let col := app.cursor.2
  let view_rows := app.viewport_size.1
  let view_cols := app.viewport_size.2
  let s0 := if row ≤ app.scroll.1 then row - 1
            else if app.scroll.1 + view_rows < row then row - view_rows
            else app.scroll.1
  let s1 := if col ≤ app.scroll.2 then col - 1
            else if app.scroll.2 + view_cols < col then col - view_cols
            else app.scroll.2
  { app with scroll := (s0, s1) }

/-- `move_cursor` from `app.rs`: clamp the shifted cursor into
`[1, MAX_ROWS] × [1, MAX_COLUMNS]`, update the selection, adjust scroll. -/
def move_cursor (app : App) (dx dy : Int) (extend_selection : Bool) : App :=
  let row := app.cursor.1
  let col := app.cursor.2
  let new_row := (clampInt ((row : Int) + dy) 1 (MAX_ROWS : Int)).toNat
  let new_col := (clampInt ((col : Int) + dx) 1 (MAX_COLUMNS : Int)).toNat
  let app := { app with cursor := (new_row, new_col) }
  let app :=
    if extend_selection then { app with selection := { app.selection with endPos := app.cursor } }
    else { app with selection := Selection.single new_row new_col }
  adjust_scroll app

/-- `jump_to_start` from `app.rs`. -/
def jump_to_start (app : App) : App :=
  { app with cursor := (1, 1), selection := Selection.single 1 1, scroll := (0, 0) }

/-- `jump_to_end` from `app.rs`: to the highest used cell, at least `(1, 1)`;
no-op when the current sheet index is invalid. -/
def jump_to_end (app : App) : App :=
  match app.sheets.get? app.current_sheet_index with
  | Option.none => app
  | some sheet =>
    let row := max (highestRow sheet) 1
    let col := max (highestColumn sheet) 1
    adjust_scroll { app with cursor := (row, col), selection := Selection.single row col }

/-- `jump_to_row_start` from `app.rs`. -/
def jump_to_row_start (app : App) : App :=
  adjust_scroll
    { app with cursor := (app.cursor.1, 1), selection := Selection.single app.cursor.1 1 }

/-- `jump_to_row_end` from `app.rs`. -/
def jump_to_row_end (app : App) : App :=
  match app.sheets.get? app.current_sheet_index with
  | Option.none => app
  | some sheet =>
    let col := max (highestColumn sheet) 1
    adjust_scroll
      { app with cursor := (app.cursor.1, col), selection := Selection.single app.cursor.1 col }

/-- `clear_selection` from `app.rs`. -/
def clear_selection (app : App) : App :=
  { app with selection := Selection.single app.cursor.1 app.cursor.2 }

/-- `next_sheet` from `app.rs`. -/
def next_sheet (app : App) : App :=
  let count := app.sheets.length
  if 0 < count then { app with current_sheet_index := (app.current_sheet_index + 1) % count }
  else app

/-- `prev_sheet` from `app.rs`. -/
def prev_sheet (app : App) : App :=
  let count := app.sheets.length
  if 0 < count then
    if app.current_sheet_index = 0 then { app with current_sheet_index := count - 1 }
    else { app with current_sheet_index := app.current_sheet_index - 1 }
  else app

/-- `is_formula_cell` from `app.rs` (argument order `(col, row)` as in the source). -/
def is_formula_cell (app : App) (col row : Nat) : Bool :=
  match app.sheets.get? app.current_sheet_index with
  | some sheet => wsGetFormula sheet row col != ""
  | Option.none => false

/-- `enter_edit_mode` from `app.rs`: rejected with a read-only notice on a
formula cell; otherwise switches to edit mode and fills the textarea. -/
def enter_edit_mode (app : App) : App :=
  if is_formula_cell app app.cursor.2 app.cursor.1 then
    match app.sheets.get? app.current_sheet_index with
    | some sheet =>
      let formula := wsGetFormula sheet app.cursor.1 app.cursor.2
      { app with status_message := some ("Formula (read-only): =" ++ formula) }
    | Option.none => app
  else
    let app := { app with mode := Mode.edit }
    match app.sheets.get? app.current_sheet_index with
    | some sheet => { app with textarea := [wsGetValue sheet app.cursor.1 app.cursor.2] }
    | Option.none => app

/-- `save_cell_value` from `app.rs`. -/
def save_cell_value (app : App) : App :=
  match app.sheets.get? app.current_sheet_index with
  | Option.none => app
  | some sheet =>
    let content := String.intercalate "\n" app.textarea
    { app with
      sheets := app.sheets.set app.current_sheet_index
        (wsSetValue sheet app.cursor.1 app.cursor.2 content) }

/-- `widen_column` from `app.rs`. -/
def widen_column (app : App) : App :=
  let col := app.cursor.2
  let current := (app.column_widths col).getD DEFAULT_COLUMN_WIDTH
  let new_width := min (current + COLUMN_WIDTH_STEP) MAX_COLUMN_WIDTH
  let app := { app with column_widths := fun k => if k = col then some new_width else app.column_widths k }
  if MAX_COLUMN_WIDTH ≤ new_width then
    let msg := "Column width at maximum (" ++ toString MAX_COLUMN_WIDTH ++ ")"
    { app with status_message := some msg }
  else app

/-- `shrink_column` from `app.rs`: step 2 down to the minimum 3; reaching the
minimum removes the map entry. -/
def shrink_column (app : App) : App :=
  let col := app.cursor.2
  let current := (app.column_widths col).getD DEFAULT_COLUMN_WIDTH
  let min_width : Nat := 3
  let new_width := max (current - COLUMN_WIDTH_STEP) min_width
  if new_width ≤ min_width then
    { app with
      column_widths := fun k => if k = col then Option.none else app.column_widths k,
      status_message := some ("Column width at minimum (" ++ toString min_width ++ ")") }
  else
    { app with column_widths := fun k => if k = col then some new_width else app.column_widths k }

/-- `get_column_width` from `app.rs`. -/
def get_column_width (app : App) (col : Nat) : Nat :=
  (app.column_widths col).getD DEFAULT_COLUMN_WIDTH

/-- `copy_selection` from `app.rs`: snapshot raw values over the normalized
selection bounds (empty data when the sheet index is invalid). -/
def copy_selection (app : App) : App :=
  let (min_row, min_col, max_row, max_col) := app.selection.bounds
  let data : List (List String) :=
    match app.sheets.get? app.current_sheet_index with
    | Option.none => []
    | some sheet =>
      (List.range (max_row - min_row + 1)).map (fun i =>
        (List.range (max_col - min_col + 1)).map (fun j =>
          wsGetValue sheet (min_row + i) (min_col + j)))
  let cells := (max_row - min_row + 1) * (max_col - min_col + 1)
  { app with
    clipboard := data,
    status_message := some ("Copied " ++ toString cells ++ " cell(s)") }

/-- One paste write: only performed when the target is within document bounds. -/
def setIfInBounds (ws : Worksheet) (row col : Nat) (v : String) : Worksheet :=
  if row ≤ MAX_ROWS ∧ col ≤ MAX_COLUMNS then wsSetValue ws row col v else ws

/-- Inner paste loop over one clipboard row, targets `(r, c0), (r, c0+1), …`. -/
def paste_row_from (ws : Worksheet) (r c0 : Nat) : List String → Worksheet
  | [] => ws
  | v :: vs => paste_row_from (setIfInBounds ws r c0 v) r (c0 + 1) vs

/-- Outer paste loop over clipboard rows, targets rows `r0, r0+1, …`. -/
def paste_rows_from (ws : Worksheet) (r0 c0 : Nat) : List (List String) → Worksheet
  | [] => ws
  | row :: rows => paste_rows_from (paste_row_from ws r0 c0 row) (r0 + 1) c0 rows

/-- `paste_clipboard` from `app.rs`: soft-fails on an empty clipboard, otherwise
writes the snapshot row-major from the cursor, skipping out-of-bounds targets. -/
def paste_clipboard (app : App) : App :=
  if app.clipboard = [] then { app with status_message := some "Clipboard is empty" }
  else
    let start_row := app.cursor.1
    let start_col := app.cursor.2
    let app1 :=
      match app.sheets.get? app.current_sheet_index with
      | Option.none => app
      | some sheet =>
        { app with
          sheets := app.sheets.set app.current_sheet_index
            (paste_rows_from sheet start_row start_col app.clipboard) }
    let rows := app1.clipboard.length
    let cols := (app1.clipboard.head?.map List.length).getD 0
    { app1 with
      status_message := some ("Pasted " ++ toString rows ++ "x" ++ toString cols ++ " cells") }

/-- `NumberingFormat::FORMAT_GENERAL` of the external library. -/
def FORMAT_GENERAL : String := "General"

/-- `NumberingFormat::FORMAT_TEXT` of the external library. -/
def FORMAT_TEXT : String := "@"

/-- `lower.contains("am")`-style two-character substring test on a char list. -/
def listHasPair (a b : Char) : List Char → Bool
  | x :: y :: rest => (x = a ∧ y = b) || listHasPair a b (y :: rest)
  | _ => false

/-- `is_date_format` from `app.rs`: the two sentinels are never date formats;
otherwise look for y/m/d/h letters or an am/pm marker in the lowercased code. -/
def is_date_format (format_code : String) : Bool :=
  if format_code = FORMAT_GENERAL ∨ format_code = FORMAT_TEXT then false
  else
    let cs := (strLower format_code).toList
    cs.contains 'y' || cs.contains 'm' || cs.contains 'd' || cs.contains 'h'
      || listHasPair 'a' 'm' cs || listHasPair 'p' 'm' cs

/-- Time-token test used by `normalize_date_format` (h, am or pm present). -/
def has_time_token (format_code : String) : Bool :=
  let cs := (strLower format_code).toList
  cs.contains 'h' || listHasPair 'a' 'm' cs || listHasPair 'p' 'm' cs

/-- Date-token test used by `normalize_date_format` for the date+time decision
(y or d present; a bare m is ambiguous with minutes and does not count). -/
def has_date_token (format_code : String) : Bool :=
  let cs := (strLower format_code).toList
  cs.contains 'y' || cs.contains 'd'

/-- `normalize_date_format` from `app.rs`: one of the three canonical patterns. -/
def normalize_date_format (format_code : String) : String :=
  let cs := (strLower format_code).toList
  if cs.contains 'h' || listHasPair 'a' 'm' cs || listHasPair 'p' 'm' cs then
    if cs.contains 'y' || cs.contains 'd' then "yyyy-mm-dd hh:mm:ss" else "hh:mm:ss"
  else "yyyy-mm-dd"

/-- `get_cell_display` from `app.rs`. `fmt` is the external
`umya_spreadsheet::helper::number_format::to_formatted_string` (value, format
code); the claims hold for every such formatter. Lengths are character counts. -/
def get_cell_display (fmt : String → String → String) (app : App) (col row : Nat) : String :=
  match app.sheets.get? app.current_sheet_index with
  | Option.none => ""
  | some sheet =>
    let formula := wsGetFormula sheet row col
    let width := get_column_width app col
    let display_value :=
      if formula ≠ "" then
        let result := wsGetValue sheet row col
        if result = "" then "=..." else result
      else
        let raw_value := wsGetValue sheet row col
        match cellsGet sheet.cells (row, col) with
        | some cell =>
          match cell.style.number_format with
          | some num_fmt =>
            if is_date_format num_fmt.format_code then
              fmt raw_value (normalize_date_format num_fmt.format_code)
            else if num_fmt.format_code ≠ FORMAT_GENERAL then fmt raw_value num_fmt.format_code
            else raw_value
          | Option.none => raw_value
        | Option.none => raw_value
    if width < display_value.length then (display_value.take (width - 1)) ++ "~" else display_value

/-- `enter_sheet_select_mode` from `app.rs`. -/
def enter_sheet_select_mode (app : App) : App :=
  { app with sheet_select_index := app.current_sheet_index, mode := Mode.sheetSelect }

/-- `sheet_select_move` from `app.rs` (`rem_euclid` wrap-around). -/
def sheet_select_move (app : App) (delta : Int) : App :=
  let count := app.sheets.length
  if count = 0 then app
  else
    { app with
      sheet_select_index := (((app.sheet_select_index : Int) + delta).emod (count : Int)).toNat }

/-- `confirm_sheet_selection` from `app.rs`. -/
def confirm_sheet_selection (app : App) : App :=
  { app with current_sheet_index := app.sheet_select_index, mode := Mode.view }

/-- Key codes that `on_key` distinguishes (`crossterm::event::KeyCode`). -/
inductive KeyCode where
  | char (c : Char)
  | f (n : Nat)
  | enter
  | left
  | right
  | up
  | down
  | tab
  | backTab
  | pageUp
  | pageDown
  | home
  | endKey
  | esc
  | other
deriving DecidableEq

/-- A key event: code, whether it is a press, and the two observed modifiers. -/
structure KeyEvent where
  code : KeyCode
  press : Bool
  ctrl : Bool
  shift : Bool
deriving DecidableEq

/-- The external `tui_textarea` input; its internals are out of scope, modelled
as appending a typed character to the last line (it never touches `App`). -/
def textarea_input (ta : List String) (k : KeyEvent) : List String :=
  match k.code with
  | KeyCode.char c => ta.dropLast ++ [(ta.getLast?.getD "").push c]
  | _ => ta

/-- View-mode key dispatch of `on_key`, in source match-arm order. `save_ok` /
`save_err` stand for the outcome of the external blocking save. -/
def view_key (save_ok : Bool) (save_err : String) (app : App) (k : KeyEvent) : App :=
  match k.code with
  | KeyCode.char c =>
    if c = 'w' ∧ k.ctrl then { app with should_quit := true }
    else if c = 's' ∧ k.ctrl then
      if save_ok then { app with status_message := some ("Saved: \"" ++ app.path ++ "\"") }
      else { app with status_message := some ("Error: " ++ save_err) }
    else if c = 'c' ∧ ¬k.ctrl then copy_selection app
    else if c = 'v' ∧ ¬k.ctrl then paste_clipboard app
    else if c = 'e' ∧ ¬k.ctrl ∧ ¬k.shift then widen_column app
    else if c = 'r' ∧ ¬k.ctrl ∧ ¬k.shift then shrink_column app
    else if c = 'w' ∧ ¬k.ctrl ∧ k.shift then move_cursor app 0 (-1) true
    else if c = 's' ∧ ¬k.ctrl ∧ k.shift then move_cursor app 0 1 true
    else if c = 'a' ∧ ¬k.ctrl ∧ k.shift then move_cursor app (-1) 0 true
    else if c = 'd' ∧ ¬k.ctrl ∧ k.shift then move_cursor app 1 0 true
    else if c = 'w' ∧ ¬k.ctrl then move_cursor app 0 (-1) false
    else if c = 'a' ∧ ¬k.ctrl then move_cursor app (-1) 0 false
    else if c = 's' ∧ ¬k.ctrl then move_cursor app 0 1 false
    else if c = 'd' ∧ ¬k.ctrl then move_cursor app 1 0 false
    else if c = '1' then set_mark_for_selection app CellMark.none
    else if c = '2' then set_mark_for_selection app CellMark.yellowBg
    else if c = '3' then set_mark_for_selection app CellMark.redText
    else if c = '4' then set_mark_for_selection app CellMark.greenText
    else if c = '5' then set_mark_for_selection app CellMark.blueBg
    else if c = '6' then set_mark_for_selection app CellMark.magentaText
    else app
  | KeyCode.f 5 => copy_selection app
  | KeyCode.f 6 => paste_clipboard app
  | KeyCode.f 2 => enter_edit_mode app
  | KeyCode.f 4 => enter_sheet_select_mode app
  | KeyCode.enter => if k.shift then move_cursor app 0 (-1) false else move_cursor app 0 1 false
  | KeyCode.left => if k.shift then move_cursor app (-1) 0 true else move_cursor app (-1) 0 false
  | KeyCode.right => if k.shift then move_cursor app 1 0 true else move_cursor app 1 0 false
  | KeyCode.up => if k.shift then move_cursor app 0 (-1) true else move_cursor app 0 (-1) false
  | KeyCode.down => if k.shift then move_cursor app 0 1 true else move_cursor app 0 1 false
  | KeyCode.tab => if k.shift then move_cursor app (-1) 0 false else move_cursor app 1 0 false
  | KeyCode.backTab => move_cursor app (-1) 0 false
  | KeyCode.pageUp => prev_sheet app
  | KeyCode.pageDown => next_sheet app
  | KeyCode.home => if k.ctrl then jump_to_start app else jump_to_row_start app
  | KeyCode.endKey => if k.ctrl then jump_to_end app else jump_to_row_end app
  | KeyCode.esc => clear_selection app
  | _ => app

/-- Sheet-select-mode key dispatch of `on_key`. -/
def sheet_select_key (app : App) (k : KeyEvent) : App :=
  match k.code with
  | KeyCode.esc => { app with mode := Mode.view }
  | KeyCode.enter => confirm_sheet_selection app
  | KeyCode.char c =>
    if c = 'w' then sheet_select_move app (-1)
    else if c = 's' then sheet_select_move app 1
    else app
  | KeyCode.up => sheet_select_move app (-1)
  | KeyCode.down => sheet_select_move app 1
  | _ => app

/-- Edit-mode key dispatch of `on_key`. -/
def edit_key (app : App) (k : KeyEvent) : App :=
  match k.code with
  | KeyCode.esc => { app with mode := Mode.view }
  | KeyCode.enter => move_cursor { save_cell_value app with mode := Mode.view } 0 1 false
  | KeyCode.tab => move_cursor { save_cell_value app with mode := Mode.view } 1 0 false
  | _ => { app with textarea := textarea_input app.textarea k }

/-- `on_key` from `app.rs`: non-press events are ignored; a processed press
first clears the status message, then dispatches on the current mode. -/
def on_key (save_ok : Bool) (save_err : String) (app : App) (k : KeyEvent) : App :=
  if k.press then
    let app1 := { app with status_message := Option.none }
    match app1.mode with
    | Mode.view => view_key save_ok save_err app1 k
    | Mode.sheetSelect => sheet_select_key app1 k
    | Mode.edit => edit_key app1 k
  else app

/-- Movement commands of the claims: `move_cursor` with arbitrary deltas and
extend flag, plus the four jump operations. -/
inductive MoveCmd where
  | move (dx dy : Int) (ext : Bool)
  | jumpStart
  | jumpEnd
  | jumpRowStart
  | jumpRowEnd
deriving DecidableEq

/-- Interpretation of one movement command. -/
def apply_move (app : App) : MoveCmd → App
  | MoveCmd.move dx dy ext => move_cursor app dx dy ext
  | MoveCmd.jumpStart => jump_to_start app
  | MoveCmd.jumpEnd => jump_to_end app
  | MoveCmd.jumpRowStart => jump_to_row_start app
  | MoveCmd.jumpRowEnd => jump_to_row_end app

/-- A finite sequence of movement commands. -/
def apply_moves (app : App) (cmds : List MoveCmd) : App :=
  cmds.foldl apply_move app

/-- Cursor bounds invariant of the spec. -/
def cursor_in_bounds (p : Nat × Nat) : Prop :=
  1 ≤ p.1 ∧ p.1 ≤ MAX_ROWS ∧ 1 ≤ p.2 ∧ p.2 ≤ MAX_COLUMNS

instance (p : Nat × Nat) : Decidable (cursor_in_bounds p) := by
  unfold cursor_in_bounds; infer_instance

/-- The current sheet (when the index is valid) has its highest used row and
column within the document limits. -/
def doc_within_limits (app : App) : Prop :=
  ∀ ws, app.sheets.get? app.current_sheet_index = some ws →
    highestRow ws ≤ MAX_ROWS ∧ highestColumn ws ≤ MAX_COLUMNS

/-- Raw value of the current sheet's cell, `""` when the sheet index is invalid. -/
def app_cell_value (app : App) (row col : Nat) : String :=
  match app.sheets.get? app.current_sheet_index with
  | some ws => wsGetValue ws row col
  | Option.none => ""

/-- A paste target cell that actually gets written: hit by some clipboard entry
(row-major from `(sr, sc)`) and within document bounds. -/
def target_hit (clip : List (List String)) (sr sc row col : Nat) : Prop :=
  ∃ dr < clip.length, ∃ dc < (clip.getD dr []).length,
    row = sr + dr ∧ col = sc + dc ∧ row ≤ MAX_ROWS ∧ col ≤ MAX_COLUMNS

/-- An empty worksheet. -/
def freshWs : Worksheet := ⟨[]⟩

/-- The state `App::new` builds for a non-existent path: one empty sheet,
cursor `(1,1)`, default viewport `(20, 10)`, everything else empty. -/
def freshApp : App :=
  { path := "test.xlsx"
    sheets := [freshWs]
    current_sheet_index := 0
    cursor := (1, 1)
    selection := Selection.single 1 1
    mode := Mode.view
    scroll := (0, 0)
    textarea := [""]
    should_quit := false
    column_widths := fun _ => Option.none
    clipboard := []
    status_message := Option.none
    viewport_size := (20, 10)
    cell_marks := fun _ => Option.none
    sheet_select_index := 0 }

/-- Fresh session with a 2×2 selection at the top-left (for the mark scenario). -/
def markDemoApp : App :=
  { freshApp with selection := { start := (1, 1), endPos := (2, 2) } }

/-- A document whose only sheet has a used cell beyond the XLS row limit
(legal in the xlsx container the program reads). -/
def oversizedApp : App :=
  { freshApp with sheets := [⟨[((70000, 1), { defaultCell with value := "x" })]⟩] }

/-- A worksheet whose cell (1,1) holds a formula with an empty cached value. -/
def formulaWs : Worksheet :=
  ⟨[((1, 1), { value := "", formula := "SUM(A2:A5)", style := fresh_style })]⟩

/-- Session on `formulaWs`, cursor at the formula cell. -/
def formulaApp : App := { freshApp with sheets := [formulaWs] }

/-- A worksheet with four values in the top-left 2×2 block. -/
def copyDemoWs : Worksheet :=
  ⟨[((1, 1), { defaultCell with value := "a" }),
    ((1, 2), { defaultCell with value := "b" }),
    ((2, 1), { defaultCell with value := "c" }),
    ((2, 2), { defaultCell with value := "d" })]⟩

/-- Session on `copyDemoWs` with the 2×2 block selected. -/
def copyDemoApp : App :=
  { freshApp with
    sheets := [copyDemoWs]
    selection := { start := (1, 1), endPos := (2, 2) } }

/-- Session with a clipboard hanging over the bottom-right document corner. -/
def clipDemoApp : App :=
  { freshApp with clipboard := [["x", "y"], ["z"]], cursor := (65536, 256) }

/-! ### Helper lemmas -/

theorem cellsGet_cellsSet (l : List ((Nat × Nat) × Cell)) (p q : Nat × Nat) (c : Cell) :
    cellsGet (cellsSet l p c) q = if q = p then some c else cellsGet l q := by
  induction l with
  | nil =>
    by_cases h : q = p
    · simp [cellsSet, cellsGet, h]
    · simp [cellsSet, cellsGet, h, Ne.symm h]
  | cons head tail ih =>
    obtain ⟨k, c0⟩ := head
    by_cases hk : k = p
    · subst hk
      by_cases h : q = k
      · simp [cellsSet, cellsGet, h]
      · simp [cellsSet, cellsGet, h, Ne.symm h]
    · by_cases h : k = q
      · subst h
        have hqp : ¬(k = p) := hk
        simp [cellsSet, cellsGet, hk, hqp, ih]
      · simp [cellsSet, cellsGet, hk, h, ih]

theorem list_get?_set_self {α : Type} (l : List α) (i : Nat) (a : α) (h : i < l.length) :
    (l.set i a).get? i = some a := by
  induction l generalizing i with
  | nil => simp at h
  | cons x xs ih =>
    cases i with
    | zero => simp
    | succ n => simpa using ih n (by simpa using h)

theorem list_get?_set_ne {α : Type} (l : List α) (i j : Nat) (a : α) (h : i ≠ j) :
    (l.set i a).get? j = l.get? j := by
  induction l generalizing i j with
  | nil => simp
  | cons x xs ih =>
    cases i with
    | zero =>
      cases j with
      | zero => exact absurd rfl h
      | succ m => simp
    | succ n =>
      cases j with
      | zero => simp
      | succ m => simpa using ih n m (by omega)

theorem list_get?_some_lt {α : Type} {l : List α} {i : Nat} {a : α} (h : l.get? i = some a) :
    i < l.length := by
  induction l generalizing i with
  | nil => simp [List.get?] at h
  | cons x xs ih =>
    cases i with
    | zero => simp
    | succ n => simpa using ih (by simpa using h)

theorem list_get?_getD {α : Type} (l : List α) (i : Nat) (d : α) (h : i < l.length) :
    l.get? i = some (l.getD i d) := by
  induction l generalizing i with
  | nil => simp at h
  | cons x xs ih =>
    cases i with
    | zero => simp [List.getD]
    | succ n => simpa [List.getD] using ih n (by simpa using h)

theorem cellsGet_wsSetValue (ws : Worksheet) (row col : Nat) (v : String) (p : Nat × Nat) :
    cellsGet (wsSetValue ws row col v).cells p =
      if p = (row, col) then
        some { (cellsGet ws.cells (row, col)).getD defaultCell with value := v }
      else cellsGet ws.cells p := by
  simp [wsSetValue, cellsGet_cellsSet]

theorem wsGetValue_wsSetValue_self (ws : Worksheet) (row col : Nat) (v : String) :
    wsGetValue (wsSetValue ws row col v) row col = v := by
  simp [wsGetValue, cellsGet_wsSetValue]

theorem cellsGet_setIfInBounds_ne (ws : Worksheet) (row col : Nat) (v : String)
    (p : Nat × Nat) (h : p ≠ (row, col)) :
    cellsGet (setIfInBounds ws row col v).cells p = cellsGet ws.cells p := by
  unfold setIfInBounds
  split
  · simp [cellsGet_wsSetValue, h]
  · rfl

theorem cellsGet_setIfInBounds_oob (ws : Worksheet) (row col : Nat) (v : String)
    (p : Nat × Nat) (h : MAX_ROWS < row ∨ MAX_COLUMNS < col) :
    cellsGet (setIfInBounds ws row col v).cells p = cellsGet ws.cells p := by
  unfold setIfInBounds
  rw [if_neg]
  omega

theorem paste_row_frame (vs : List String) : ∀ (ws : Worksheet) (r c0 tr tc : Nat),
    (tr ≠ r ∨ tc < c0 ∨ c0 + vs.length ≤ tc ∨ MAX_ROWS < tr ∨ MAX_COLUMNS < tc) →
    cellsGet (paste_row_from ws r c0 vs).cells (tr, tc) = cellsGet ws.cells (tr, tc) := by
  induction vs with
  | nil => intro ws r c0 tr tc _; rfl
  | cons v rest ih =>
    intro ws r c0 tr tc h
    simp only [List.length_cons] at h
    show cellsGet (paste_row_from (setIfInBounds ws r c0 v) r (c0 + 1) rest).cells (tr, tc) = _
    rw [ih (setIfInBounds ws r c0 v) r (c0 + 1) tr tc (by
      rcases h with h | h | h | h | h
      · exact Or.inl h
      · exact Or.inr (Or.inl (by omega))
      · exact Or.inr (Or.inr (Or.inl (by omega)))
      · exact Or.inr (Or.inr (Or.inr (Or.inl h)))
      · exact Or.inr (Or.inr (Or.inr (Or.inr h))))]
    rcases h with h | h | h | h | h
    · exact cellsGet_setIfInBounds_ne _ _ _ _ _ (by
        intro heq
        exact h (congrArg Prod.fst heq))
    · exact cellsGet_setIfInBounds_ne _ _ _ _ _ (by
        intro heq
        have h2 : tc = c0 := congrArg Prod.snd heq
        omega)
    · exact cellsGet_setIfInBounds_ne _ _ _ _ _ (by
        intro heq
        have h2 : tc = c0 := congrArg Prod.snd heq
        omega)
    · rcases eq_or_ne tr r with rfl | hne
      · exact cellsGet_setIfInBounds_oob _ _ _ _ _ (Or.inl h)
      · exact cellsGet_setIfInBounds_ne _ _ _ _ _ (by
          intro heq
          exact hne (congrArg Prod.fst heq))
    · rcases eq_or_ne tc c0 with rfl | hne
      · exact cellsGet_setIfInBounds_oob _ _ _ _ _ (Or.inr h)
      · exact cellsGet_setIfInBounds_ne _ _ _ _ _ (by
          intro heq
          exact hne (congrArg Prod.snd heq))

theorem paste_row_hit (vs : List String) : ∀ (ws : Worksheet) (r c0 dc : Nat) (v : String),
    vs.get? dc = some v → r ≤ MAX_ROWS → c0 + dc ≤ MAX_COLUMNS →
    wsGetValue (paste_row_from ws r c0 vs) r (c0 + dc) = v := by
  induction vs with
  | nil => intro ws r c0 dc v h; simp [List.get?] at h
  | cons v0 rest ih =>
    intro ws r c0 dc v h hr hc
    cases dc with
    | zero =>
      have hv : v0 = v := by simpa using h
      subst hv
      show wsGetValue (paste_row_from (setIfInBounds ws r c0 v0) r (c0 + 1) rest) r (c0 + 0) = v0
      have hframe := paste_row_frame rest (setIfInBounds ws r c0 v0) r (c0 + 1) r (c0 + 0)
        (Or.inr (Or.inl (by omega)))
      unfold wsGetValue
      rw [hframe]
      have heqw : setIfInBounds ws r c0 v0 = wsSetValue ws r c0 v0 := by
        unfold setIfInBounds
        rw [if_pos ⟨hr, by omega⟩]
      rw [heqw]
      have hval := wsGetValue_wsSetValue_self ws r c0 v0
      unfold wsGetValue at hval
      simpa using hval
    | succ n =>
      show wsGetValue (paste_row_from (setIfInBounds ws r c0 v0) r (c0 + 1) rest) r (c0 + (n + 1)) = v
      have : c0 + (n + 1) = (c0 + 1) + n := by omega
      rw [this]
      exact ih _ r (c0 + 1) n v (by simpa using h) hr (by omega)

theorem paste_rows_frame (rows : List (List String)) :
    ∀ (ws : Worksheet) (r0 c0 tr tc : Nat),
    (∀ dr, dr < rows.length → tr = r0 + dr →
      (tc < c0 ∨ c0 + (rows.getD dr []).length ≤ tc ∨ MAX_ROWS < tr ∨ MAX_COLUMNS < tc)) →
    cellsGet (paste_rows_from ws r0 c0 rows).cells (tr, tc) = cellsGet ws.cells (tr, tc) := by
  induction rows with
  | nil => intro ws r0 c0 tr tc _; rfl
  | cons rd rest ih =>
    intro ws r0 c0 tr tc h
    show cellsGet (paste_rows_from (paste_row_from ws r0 c0 rd) (r0 + 1) c0 rest).cells (tr, tc) = _
    rw [ih _ (r0 + 1) c0 tr tc (by
      intro dr hdr htr
      have := h (dr + 1) (by simpa using Nat.succ_lt_succ hdr) (by omega)
      simpa using this)]
    rcases eq_or_ne tr r0 with heq | hne
    · have hd := h 0 (by simp) (by omega)
      simp only [List.getD_cons_zero] at hd
      exact paste_row_frame rd ws r0 c0 tr tc (Or.inr hd)
    · exact paste_row_frame rd ws r0 c0 tr tc (Or.inl hne)

theorem paste_rows_hit (rows : List (List String)) :
    ∀ (ws : Worksheet) (r0 c0 dr dc : Nat),
    dr < rows.length → dc < (rows.getD dr []).length →
    r0 + dr ≤ MAX_ROWS → c0 + dc ≤ MAX_COLUMNS →
    wsGetValue (paste_rows_from ws r0 c0 rows) (r0 + dr) (c0 + dc) =
      (rows.getD dr []).getD dc "" := by
  induction rows with
  | nil => intro ws r0 c0 dr dc h; simp at h
  | cons rd rest ih =>
    intro ws r0 c0 dr dc hdr hdc hr hc
    cases dr with
    | zero =>
      simp only [List.getD_cons_zero] at hdc ⊢
      show wsGetValue (paste_rows_from (paste_row_from ws r0 c0 rd) (r0 + 1) c0 rest)
        (r0 + 0) (c0 + dc) = _
      unfold wsGetValue
      rw [paste_rows_frame rest _ (r0 + 1) c0 (r0 + 0) (c0 + dc) (by intro dr _ habs; omega)]
      have := paste_row_hit rd ws r0 c0 dc (rd.getD dc "")
        (list_get?_getD rd dc "" hdc) (by omega) hc
      unfold wsGetValue at this
      simpa using this
    | succ n =>
      simp only [List.getD_cons_succ] at hdc ⊢
      show wsGetValue (paste_rows_from (paste_row_from ws r0 c0 rd) (r0 + 1) c0 rest)
        (r0 + (n + 1)) (c0 + dc) = _
      have : r0 + (n + 1) = (r0 + 1) + n := by omega
      rw [this]
      exact ih _ (r0 + 1) c0 n dc (by simpa using hdr) hdc (by omega) hc

theorem adjust_scroll_only_scroll (app : App) :
    (adjust_scroll app).cursor = app.cursor ∧ (adjust_scroll app).sheets = app.sheets ∧
    (adjust_scroll app).current_sheet_index = app.current_sheet_index ∧
    (adjust_scroll app).viewport_size = app.viewport_size := by
  unfold adjust_scroll
  exact ⟨rfl, rfl, rfl, rfl⟩

theorem clampInt_toNat_bounds (x : Int) (m : Nat) (hm : 1 ≤ m) :
    1 ≤ (clampInt x 1 (m : Int)).toNat ∧ (clampInt x 1 (m : Int)).toNat ≤ m := by
  unfold clampInt
  omega

theorem apply_move_keeps_doc (app : App) (c : MoveCmd) :
    (apply_move app c).sheets = app.sheets ∧
    (apply_move app c).current_sheet_index = app.current_sheet_index := by
  cases c with
  | move dx dy ext =>
    unfold apply_move move_cursor
    cases ext <;> simp [adjust_scroll]
  | jumpStart => exact ⟨rfl, rfl⟩
  | jumpEnd =>
    unfold apply_move jump_to_end
    cases happ : app.sheets.get? app.current_sheet_index <;> simp [adjust_scroll]
  | jumpRowStart =>
    unfold apply_move jump_to_row_start
    simp [adjust_scroll]
  | jumpRowEnd =>
    unfold apply_move jump_to_row_end
    cases happ : app.sheets.get? app.current_sheet_index <;> simp [adjust_scroll]

theorem apply_move_bounds (app : App) (c : MoveCmd)
    (hdoc : doc_within_limits app) (hcur : cursor_in_bounds app.cursor) :
    cursor_in_bounds (apply_move app c).cursor := by
  obtain ⟨hc1, hc2, hc3, hc4⟩ := hcur
  cases c with
  | move dx dy ext =>
    unfold apply_move move_cursor
    cases ext <;> simp [adjust_scroll, cursor_in_bounds, clampInt, MAX_ROWS, MAX_COLUMNS]
  | jumpStart =>
    simp [apply_move, jump_to_start, cursor_in_bounds, MAX_ROWS, MAX_COLUMNS]
  | jumpEnd =>
    unfold apply_move jump_to_end
    cases happ : app.sheets.get? app.current_sheet_index with
    | none => exact ⟨hc1, hc2, hc3, hc4⟩
    | some ws =>
      obtain ⟨hw1, hw2⟩ := hdoc ws happ
      simp only [adjust_scroll, cursor_in_bounds]
      refine ⟨by omega, by unfold MAX_ROWS at hw1 ⊢; omega, by omega,
        by unfold MAX_COLUMNS at hw2 ⊢; omega⟩
  | jumpRowStart =>
    unfold apply_move jump_to_row_start
    simp only [adjust_scroll, cursor_in_bounds]
    exact ⟨hc1, hc2, by omega, by unfold MAX_COLUMNS; omega⟩
  | jumpRowEnd =>
    unfold apply_move jump_to_row_end
    cases happ : app.sheets.get? app.current_sheet_index with
    | none => exact ⟨hc1, hc2, hc3, hc4⟩
    | some ws =>
      obtain ⟨hw1, hw2⟩ := hdoc ws happ
      simp only [adjust_scroll, cursor_in_bounds]
      exact ⟨hc1, hc2, by omega, by unfold MAX_COLUMNS at hw2 ⊢; omega⟩

theorem copy_selection_keeps (app : App) :
    (copy_selection app).sheets = app.sheets ∧
    (copy_selection app).current_sheet_index = app.current_sheet_index ∧
    (copy_selection app).cursor = app.cursor := by
  unfold copy_selection Selection.bounds
  exact ⟨rfl, rfl, rfl⟩

theorem copy_selection_clipboard (app : App) (ws : Worksheet)
    (minR minC maxR maxC : Nat)
    (hws : app.sheets.get? app.current_sheet_index = some ws)
    (hb : app.selection.bounds = (minR, minC, maxR, maxC)) :
    (copy_selection app).clipboard =
      (List.range (maxR - minR + 1)).map (fun i =>
        (List.range (maxC - minC + 1)).map (fun j =>
          wsGetValue ws (minR + i) (minC + j))) := by
  unfold copy_selection
  rw [hb, hws]

theorem paste_clipboard_spec (app : App) (ws : Worksheet)
    (hws : app.sheets.get? app.current_sheet_index = some ws)
    (hne : app.clipboard ≠ []) :
    paste_clipboard app =
      { app with
        sheets := app.sheets.set app.current_sheet_index
          (paste_rows_from ws app.cursor.1 app.cursor.2 app.clipboard),
        status_message := some ("Pasted " ++ toString app.clipboard.length ++ "x" ++
          toString ((app.clipboard.head?.map List.length).getD 0) ++ " cells") } := by
  unfold paste_clipboard
  rw [if_neg hne, hws]

theorem shrink_column_cursor (app : App) : (shrink_column app).cursor = app.cursor := by
  unfold shrink_column
  dsimp only
  split <;> rfl

theorem shrink_column_width_at (app : App) :
    (shrink_column app).column_widths app.cursor.2 =
      if max ((app.column_widths app.cursor.2).getD DEFAULT_COLUMN_WIDTH - COLUMN_WIDTH_STEP) 3 ≤ 3
      then Option.none
      else
        some (max ((app.column_widths app.cursor.2).getD DEFAULT_COLUMN_WIDTH -
          COLUMN_WIDTH_STEP) 3) := by
  unfold shrink_column
  dsimp only
  split <;> simp

/-! ### Claims -/

/-- Claim C1 (refuted by the code, documenting the bug): after marking the 2×2
block (1,1)–(2,2) Yellow and then marking it None, the in-session mark map does
report `CellMark.none` — but the persisted style still carries the yellow
pattern-fill foreground color (only the pattern *type* was reset), so
reverse-decoding the styles as `load_cell_marks_from_spreadsheet` does at
document open yields `CellMark.yellowBg` again, not `CellMark.none`. -/
theorem c1_clear_mark_residual_style :
    get_cell_mark (set_mark_for_selection (set_mark_for_selection markDemoApp
      CellMark.yellowBg) CellMark.none) 1 1 = CellMark.none ∧
    ((cellsGet ((set_mark_for_selection (set_mark_for_selection markDemoApp
        CellMark.yellowBg) CellMark.none).sheets.getD 0 freshWs).cells (1, 1)).getD
      defaultCell).style.fill =
      some ⟨some ⟨PatternValues.patNone, some ⟨"FFFFEF00"⟩⟩⟩ ∧
    load_cell_marks_from_spreadsheet (set_mark_for_selection (set_mark_for_selection
      markDemoApp CellMark.yellowBg) CellMark.none).sheets (0, 1, 1) =
      some CellMark.yellowBg := by
  refine ⟨rfl, rfl, rfl⟩

/-- Claim C2: encoding any `CellMark` (including `none`) onto a fresh unstyled
cell and decoding the resulting style colors (background pattern foreground
first, then font color) yields the same mark; the known natural primary colors
not produced by the encoder decode to their semantic marks; any color whose
uppercase form is outside the recognized tables decodes to `CellMark.none`. -/
theorem c2_mark_codec_roundtrip :
    (∀ m : CellMark, decode_cell_style (apply_mark_style m fresh_style) = m) ∧
    argb_to_bg_mark "FFFFFF00" = CellMark.yellowBg ∧
    argb_to_bg_mark "FF0000FF" = CellMark.blueBg ∧
    argb_to_font_mark "FFFF0000" = CellMark.redText ∧
    argb_to_font_mark "FF008000" = CellMark.greenText ∧
    argb_to_font_mark "FF00FF00" = CellMark.greenText ∧
    argb_to_font_mark "FFFF00FF" = CellMark.magentaText ∧
    (∀ s : String,
      strUpper s ∉ (["FFFFFF00", "FFFF00", "FFFFEF00", "FF0000FF", "0000FF", "FF0000FE",
        "FF00BFFF", "00BFFF"] : List String) →
      argb_to_bg_mark s = CellMark.none) ∧
    (∀ s : String,
      strUpper s ∉ (["FFFF0000", "FF0000", "FFFF0001", "FF008000", "008000", "FF008001",
        "FF00FF00", "00FF00", "FFFF00FF", "FF00FF", "FFFF00FE"] : List String) →
      argb_to_font_mark s = CellMark.none) := by
  refine ⟨?_, rfl, rfl, rfl, rfl, rfl, rfl, ?_, ?_⟩
  · intro m
    cases m <;> rfl
  · intro s hs
    simp only [List.mem_cons, List.not_mem_nil, or_false, not_or] at hs
    unfold argb_to_bg_mark
    split_ifs with hA hB
    · tauto
    · tauto
    · rfl
  · intro s hs
    simp only [List.mem_cons, List.not_mem_nil, or_false, not_or] at hs
    unfold argb_to_font_mark
    split_ifs with hA hB hC
    · tauto
    · tauto
    · tauto
    · rfl

/-- Witness for C2's quantified parts at a concrete unrecognized color. -/
theorem c2_mark_codec_roundtrip_witness :
    argb_to_bg_mark "12AB34" = CellMark.none ∧ argb_to_font_mark "12AB34" = CellMark.none :=
  ⟨c2_mark_codec_roundtrip.2.2.2.2.2.2.2.1 "12AB34" (by decide),
   c2_mark_codec_roundtrip.2.2.2.2.2.2.2.2 "12AB34" (by decide)⟩

/-- Claim C3 counterexample: starting in bounds at (1,1), the single movement
command jump-to-end on a document whose sheet has a used cell at row 70000
(beyond the XLS limit, but possible in the xlsx container) leaves the cursor
out of bounds — `jump_to_end` clamps only from below, never to `MAX_ROWS`. -/
theorem c3_cursor_bounds_counterexample :
    cursor_in_bounds oversizedApp.cursor ∧
    ¬ cursor_in_bounds (apply_moves oversizedApp [MoveCmd.jumpEnd]).cursor := by
  constructor
  · decide
  · decide

/-- Claim C3 (amended): provided the current sheet's highest used row and
column are within `MAX_ROWS`/`MAX_COLUMNS`, every finite sequence of movement
commands (moves with arbitrary deltas and extend flags, and the four jumps)
started at an in-bounds cursor keeps `1 ≤ row ≤ MAX_ROWS` and
`1 ≤ col ≤ MAX_COLUMNS`; out-of-bounds moves are clamped silently. -/
theorem c3_cursor_bounds_amended (app : App) (cmds : List MoveCmd)
    (hdoc : doc_within_limits app) (hcur : cursor_in_bounds app.cursor) :
    cursor_in_bounds (apply_moves app cmds).cursor := by
  induction cmds generalizing app with
  | nil => exact hcur
  | cons c rest ih =>
    have hkeep := apply_move_keeps_doc app c
    show cursor_in_bounds (apply_moves (apply_move app c) rest).cursor
    refine ih (apply_move app c) ?_ (apply_move_bounds app c hdoc hcur)
    intro ws hws
    rw [hkeep.1, hkeep.2] at hws
    exact hdoc ws hws

/-- Witness for C3 (amended) on the fresh document with a mixed command list. -/
theorem c3_cursor_bounds_amended_witness :
    cursor_in_bounds (apply_moves freshApp
      [MoveCmd.move 3 500000 false, MoveCmd.jumpEnd, MoveCmd.move (-9) 0 true,
       MoveCmd.jumpRowEnd, MoveCmd.jumpStart]).cursor := by
  refine c3_cursor_bounds_amended freshApp _ ?_ (by decide)
  intro ws hws
  have hw : freshWs = ws := by
    have h0 : (freshApp.sheets.get? freshApp.current_sheet_index) = some freshWs := rfl
    rw [h0] at hws
    exact (Option.some.injEq _ _).mp hws
  rw [← hw]
  decide

/-- Claim C6 counterexample: shrinking four times from the default width
removes the map entry, after which the column renders at the default width 10
again — not at the minimum 3 as the claim states. -/
theorem c6_shrink_column_counterexample :
    (shrink_column (shrink_column (shrink_column (shrink_column freshApp)))).column_widths 1 =
      Option.none ∧
    get_column_width (shrink_column (shrink_column (shrink_column (shrink_column freshApp)))) 1 =
      10 ∧
    ¬ get_column_width (shrink_column (shrink_column (shrink_column (shrink_column freshApp)))) 1 =
      3 := by
  refine ⟨rfl, rfl, ?_⟩
  decide

/-- Claim C6 (amended): starting with no entry for the cursor's column
(default width 10), three shrinks step the stored width 10 → 8 → 6 → 4 with a
map entry retained, and the fourth shrink reaches the minimum and removes the
entry — after which the column renders at the DEFAULT width (10), because
`get_column_width` falls back to the default when no entry exists. -/
theorem c6_shrink_column_sequence (app : App)
    (h0 : app.column_widths app.cursor.2 = Option.none) :
    get_column_width app app.cursor.2 = 10 ∧
    (shrink_column app).column_widths app.cursor.2 = some 8 ∧
    (shrink_column (shrink_column app)).column_widths app.cursor.2 = some 6 ∧
    (shrink_column (shrink_column (shrink_column app))).column_widths app.cursor.2 = some 4 ∧
    (shrink_column (shrink_column (shrink_column (shrink_column app)))).column_widths
      app.cursor.2 = Option.none ∧
    get_column_width (shrink_column (shrink_column (shrink_column (shrink_column app))))
      app.cursor.2 = DEFAULT_COLUMN_WIDTH := by
  have e1c : (shrink_column app).cursor = app.cursor := shrink_column_cursor app
  have w1 : (shrink_column app).column_widths app.cursor.2 = some 8 := by
    rw [shrink_column_width_at app, h0]
    norm_num [DEFAULT_COLUMN_WIDTH, COLUMN_WIDTH_STEP]
  have e2c : (shrink_column (shrink_column app)).cursor = app.cursor := by
    rw [shrink_column_cursor, e1c]
  have w2 : (shrink_column (shrink_column app)).column_widths app.cursor.2 = some 6 := by
    have := shrink_column_width_at (shrink_column app)
    rw [e1c] at this
    rw [this, w1]
    norm_num [COLUMN_WIDTH_STEP]
  have e3c : (shrink_column (shrink_column (shrink_column app))).cursor = app.cursor := by
    rw [shrink_column_cursor, e2c]
  have w3 : (shrink_column (shrink_column (shrink_column app))).column_widths app.cursor.2 =
      some 4 := by
    have := shrink_column_width_at (shrink_column (shrink_column app))
    rw [e2c] at this
    rw [this, w2]
    norm_num [COLUMN_WIDTH_STEP]
  have w4 : (shrink_column (shrink_column (shrink_column (shrink_column app)))).column_widths
      app.cursor.2 = Option.none := by
    have := shrink_column_width_at (shrink_column (shrink_column (shrink_column app)))
    rw [e3c] at this
    rw [this, w3]
    norm_num [COLUMN_WIDTH_STEP]
  refine ⟨by simp [get_column_width, h0, DEFAULT_COLUMN_WIDTH], w1, w2, w3, w4, ?_⟩
  simp [get_column_width, w4]

/-- Witness for C6 (amended) on the fresh session (cursor column 1, no entry). -/
theorem c6_shrink_column_sequence_witness :
    get_column_width freshApp freshApp.cursor.2 = 10 ∧
    (shrink_column freshApp).column_widths freshApp.cursor.2 = some 8 ∧
    (shrink_column (shrink_column freshApp)).column_widths freshApp.cursor.2 = some 6 ∧
    (shrink_column (shrink_column (shrink_column freshApp))).column_widths
      freshApp.cursor.2 = some 4 ∧
    (shrink_column (shrink_column (shrink_column (shrink_column freshApp)))).column_widths
      freshApp.cursor.2 = Option.none ∧
    get_column_width (shrink_column (shrink_column (shrink_column (shrink_column freshApp))))
      freshApp.cursor.2 = DEFAULT_COLUMN_WIDTH :=
  c6_shrink_column_sequence freshApp rfl

/-- Claim C7: after `adjust_scroll` (run by every cursor move) the cursor is
visible on both axes — `scroll < cursor ≤ scroll + viewport` — and the new
offset is exactly: cursor−1 when the cursor was at or before the first visible
line; unchanged when the cursor was already visible; advanced by exactly the
overshoot (making the cursor the last visible line) when past the last visible
line. Never re-centers. -/
theorem c7_adjust_scroll_exact (app : App)
    (hr : 1 ≤ app.cursor.1) (hc : 1 ≤ app.cursor.2)
    (hvr : 1 ≤ app.viewport_size.1) (hvc : 1 ≤ app.viewport_size.2) :
    ((adjust_scroll app).scroll.1 < app.cursor.1 ∧
     app.cursor.1 ≤ (adjust_scroll app).scroll.1 + app.viewport_size.1 ∧
     (adjust_scroll app).scroll.2 < app.cursor.2 ∧
     app.cursor.2 ≤ (adjust_scroll app).scroll.2 + app.viewport_size.2) ∧
    ((app.cursor.1 ≤ app.scroll.1 + 1 → (adjust_scroll app).scroll.1 = app.cursor.1 - 1) ∧
     (app.scroll.1 < app.cursor.1 → app.cursor.1 ≤ app.scroll.1 + app.viewport_size.1 →
       (adjust_scroll app).scroll.1 = app.scroll.1) ∧
     (app.scroll.1 + app.viewport_size.1 < app.cursor.1 →
       (adjust_scroll app).scroll.1 =
         app.scroll.1 + (app.cursor.1 - (app.scroll.1 + app.viewport_size.1)) ∧
       app.cursor.1 = (adjust_scroll app).scroll.1 + app.viewport_size.1)) ∧
    ((app.cursor.2 ≤ app.scroll.2 + 1 → (adjust_scroll app).scroll.2 = app.cursor.2 - 1) ∧
     (app.scroll.2 < app.cursor.2 → app.cursor.2 ≤ app.scroll.2 + app.viewport_size.2 →
       (adjust_scroll app).scroll.2 = app.scroll.2) ∧
     (app.scroll.2 + app.viewport_size.2 < app.cursor.2 →
       (adjust_scroll app).scroll.2 =
         app.scroll.2 + (app.cursor.2 - (app.scroll.2 + app.viewport_size.2)) ∧
       app.cursor.2 = (adjust_scroll app).scroll.2 + app.viewport_size.2)) := by
  simp only [adjust_scroll]
  split_ifs <;> refine ⟨⟨?_, ?_, ?_, ?_⟩, ⟨?_, ?_, ?_⟩, ⟨?_, ?_, ?_⟩⟩ <;> intros <;>
    first
    | omega
    | (constructor <;> omega)

/-- Witness for C7 at a concrete state: cursor (30, 1), scroll (0, 0),
viewport (20, 10): the row axis overshoots and the column axis is visible. -/
theorem c7_adjust_scroll_exact_witness :
    (adjust_scroll { freshApp with cursor := (30, 1) }).scroll.1 =
      { freshApp with cursor := (30, 1) }.scroll.1 +
        ({ freshApp with cursor := (30, 1) }.cursor.1 -
          ({ freshApp with cursor := (30, 1) }.scroll.1 +
            { freshApp with cursor := (30, 1) }.viewport_size.1)) :=
  ((c7_adjust_scroll_exact { freshApp with cursor := (30, 1) }
    (by decide) (by decide) (by decide) (by decide)).2.1.2.2 (by decide)).1

/-- Claim C8: every format code classified as a date/time format normalizes to
exactly one of the three canonical patterns, picked by which tokens occur
(time tokens: h/am/pm; date tokens for this decision: y/d — an m alone is
ambiguous with minutes, as in `hh:mm`), independent of ordering/separators. -/
theorem c8_normalize_date_format_canonical (fc : String) (hdf : is_date_format fc = true) :
    (has_time_token fc = true ∧ has_date_token fc = true ∧
      normalize_date_format fc = "yyyy-mm-dd hh:mm:ss") ∨
    (has_time_token fc = true ∧ has_date_token fc = false ∧
      normalize_date_format fc = "hh:mm:ss") ∨
    (has_time_token fc = false ∧ normalize_date_format fc = "yyyy-mm-dd") := by
  have hn : normalize_date_format fc =
      if has_time_token fc then
        (if has_date_token fc then "yyyy-mm-dd hh:mm:ss" else "hh:mm:ss")
      else "yyyy-mm-dd" := rfl
  cases ht : has_time_token fc <;> cases hd : has_date_token fc <;> simp [hn, ht, hd]

/-- Witness for C8 at the date+time code "yyyy/m/d h:mm" and at the pure time
code "h:mm". -/
theorem c8_normalize_date_format_canonical_witness :
    normalize_date_format "yyyy/m/d h:mm" = "yyyy-mm-dd hh:mm:ss" ∧
    normalize_date_format "h:mm" = "hh:mm:ss" := by
  have h1 := c8_normalize_date_format_canonical "yyyy/m/d h:mm" (by decide)
  have h2 := c8_normalize_date_format_canonical "h:mm" (by decide)
  constructor
  · rcases h1 with h | h | h
    · exact h.2.2
    · exact absurd h.2.1 (by decide)
    · exact absurd h.1 (by decide)
  · rcases h2 with h | h | h
    · exact absurd h.2.1 (by decide)
    · exact h.2.2
    · exact absurd h.1 (by decide)

/-- Claim C4: copying the selection's normalized R×C bounds and pasting at a
cursor `(r, c)` with `r + R - 1 ≤ MAX_ROWS` and `c + C - 1 ≤ MAX_COLUMNS`
reproduces exactly the copied raw values in the target rectangle — for every
state, hence independent of any number formatting or marks on source or
target cells. -/
theorem c4_copy_paste_roundtrip (app : App) (ws : Worksheet)
    (minR minC maxR maxC r c : Nat)
    (hws : app.sheets.get? app.current_sheet_index = some ws)
    (hb : app.selection.bounds = (minR, minC, maxR, maxC))
    (hr : r + (maxR - minR) ≤ MAX_ROWS) (hc : c + (maxC - minC) ≤ MAX_COLUMNS) :
    ∀ i j, i ≤ maxR - minR → j ≤ maxC - minC →
      app_cell_value (paste_clipboard { copy_selection app with cursor := (r, c) })
        (r + i) (c + j) = wsGetValue ws (minR + i) (minC + j) := by
  intro i j hi hj
  have hkeep := copy_selection_keeps app
  have hclip : ({ copy_selection app with cursor := (r, c) } : App).clipboard =
      (List.range (maxR - minR + 1)).map (fun a =>
        (List.range (maxC - minC + 1)).map (fun b =>
          wsGetValue ws (minR + a) (minC + b))) := by
    show (copy_selection app).clipboard = _
    exact copy_selection_clipboard app ws minR minC maxR maxC hws hb
  have hlen : ({ copy_selection app with cursor := (r, c) } : App).clipboard.length =
      maxR - minR + 1 := by
    rw [hclip]; simp
  have hne : ({ copy_selection app with cursor := (r, c) } : App).clipboard ≠ [] := by
    intro h0
    rw [h0] at hlen
    simp at hlen
  have hsh : ({ copy_selection app with cursor := (r, c) } : App).sheets = app.sheets :=
    hkeep.1
  have hidx : ({ copy_selection app with cursor := (r, c) } : App).current_sheet_index =
      app.current_sheet_index := hkeep.2.1
  have hws2 : ({ copy_selection app with cursor := (r, c) } : App).sheets.get?
      ({ copy_selection app with cursor := (r, c) } : App).current_sheet_index = some ws := by
    rw [hsh, hidx]; exact hws
  have hspec := paste_clipboard_spec _ ws hws2 hne
  have hlt : app.current_sheet_index < app.sheets.length := list_get?_some_lt hws
  -- the value lands via the row-major paste loops
  have hrowget : ({ copy_selection app with cursor := (r, c) } : App).clipboard.get? i =
      some ((List.range (maxC - minC + 1)).map (fun b =>
        wsGetValue ws (minR + i) (minC + b))) := by
    rw [hclip]
    rw [List.get?_map, List.get?_range (by omega)]
    rfl
  have hrowD : ({ copy_selection app with cursor := (r, c) } : App).clipboard.getD i [] =
      (List.range (maxC - minC + 1)).map (fun b =>
        wsGetValue ws (minR + i) (minC + b)) := by
    have h2 := list_get?_getD ({ copy_selection app with cursor := (r, c) } : App).clipboard i
      [] (by omega)
    rw [hrowget] at h2
    exact ((Option.some.injEq _ _).mp h2).symm
  have hcellget : ((List.range (maxC - minC + 1)).map (fun b =>
      wsGetValue ws (minR + i) (minC + b))).get? j =
      some (wsGetValue ws (minR + i) (minC + j)) := by
    rw [List.get?_map, List.get?_range (by omega)]
    rfl
  have hcellD : ((List.range (maxC - minC + 1)).map (fun b =>
      wsGetValue ws (minR + i) (minC + b))).getD j "" =
      wsGetValue ws (minR + i) (minC + j) := by
    have h2 := list_get?_getD ((List.range (maxC - minC + 1)).map (fun b =>
      wsGetValue ws (minR + i) (minC + b))) j "" (by simp; omega)
    rw [hcellget] at h2
    exact ((Option.some.injEq _ _).mp h2).symm
  have hhit := paste_rows_hit ({ copy_selection app with cursor := (r, c) } : App).clipboard
    ws r c i j (by omega) (by rw [hrowD]; simp; omega) (by omega) (by omega)
  rw [hrowD, hcellD] at hhit
  unfold app_cell_value
  rw [hspec]
  have hget2 : (({ copy_selection app with cursor := (r, c) } : App).sheets.set
      ({ copy_selection app with cursor := (r, c) } : App).current_sheet_index
      (paste_rows_from ws ({ copy_selection app with cursor := (r, c) } : App).cursor.1
        ({ copy_selection app with cursor := (r, c) } : App).cursor.2
        ({ copy_selection app with cursor := (r, c) } : App).clipboard)).get?
      ({ copy_selection app with cursor := (r, c) } : App).current_sheet_index =
      some (paste_rows_from ws r c
        ({ copy_selection app with cursor := (r, c) } : App).clipboard) := by
    rw [hsh, hidx]
    exact list_get?_set_self _ _ _ hlt
  simp only [hget2]
  exact hhit

/-- Witness for C4: copy the 2×2 block "a b / c d" and paste it at (3, 3). -/
theorem c4_copy_paste_roundtrip_witness :
    app_cell_value (paste_clipboard { copy_selection copyDemoApp with cursor := (3, 3) }) 3 3 =
      "a" ∧
    app_cell_value (paste_clipboard { copy_selection copyDemoApp with cursor := (3, 3) }) 4 4 =
      "d" := by
  have h := c4_copy_paste_roundtrip copyDemoApp copyDemoWs 1 1 2 2 3 3 rfl rfl
    (by decide) (by decide)
  exact ⟨h 0 0 (by decide) (by decide), h 1 1 (by decide) (by decide)⟩

/-- Claim C5: pasting a non-empty clipboard writes exactly the in-bounds subset
of target cells (row-major from the cursor, skipping out-of-bounds targets,
no wrapping, no error); every cell of the current sheet not in that in-bounds
target subset — in particular every cell beyond the document bounds — is left
completely unchanged, as is every other sheet. -/
theorem c5_paste_clipping (app : App) (ws : Worksheet)
    (hws : app.sheets.get? app.current_sheet_index = some ws)
    (hne : app.clipboard ≠ []) :
    ∃ ws2, (paste_clipboard app).sheets.get? app.current_sheet_index = some ws2 ∧
      (∀ dr dc, dr < app.clipboard.length → dc < (app.clipboard.getD dr []).length →
        app.cursor.1 + dr ≤ MAX_ROWS → app.cursor.2 + dc ≤ MAX_COLUMNS →
        wsGetValue ws2 (app.cursor.1 + dr) (app.cursor.2 + dc) =
          (app.clipboard.getD dr []).getD dc "") ∧
      (∀ row col, ¬ target_hit app.clipboard app.cursor.1 app.cursor.2 row col →
        cellsGet ws2.cells (row, col) = cellsGet ws.cells (row, col)) ∧
      (∀ sidx, sidx ≠ app.current_sheet_index →
        (paste_clipboard app).sheets.get? sidx = app.sheets.get? sidx) := by
  have hspec := paste_clipboard_spec app ws hws hne
  have hlt : app.current_sheet_index < app.sheets.length := list_get?_some_lt hws
  refine ⟨paste_rows_from ws app.cursor.1 app.cursor.2 app.clipboard, ?_, ?_, ?_, ?_⟩
  · rw [hspec]
    exact list_get?_set_self _ _ _ hlt
  · intro dr dc h1 h2 h3 h4
    exact paste_rows_hit app.clipboard ws app.cursor.1 app.cursor.2 dr dc h1 h2 h3 h4
  · intro row col hmiss
    apply paste_rows_frame
    intro dr hdr htr
    by_contra hcon
    push_neg at hcon
    obtain ⟨hA, hB, hC, hD⟩ := hcon
    exact hmiss ⟨dr, hdr, col - app.cursor.2, by omega, htr, by omega, by omega, by omega⟩
  · intro sidx hsidx
    rw [hspec]
    exact list_get?_set_ne _ _ _ _ (fun h => hsidx h.symm)

/-- Witness for C5: a 2-row ragged clipboard pasted at the very corner
(65536, 256): only the corner target is in bounds and receives "x"; the cell
one row below the document limit is untouched. -/
theorem c5_paste_clipping_witness :
    ∃ ws2, (paste_clipboard clipDemoApp).sheets.get? 0 = some ws2 ∧
      wsGetValue ws2 65536 256 = "x" ∧
      cellsGet ws2.cells (65537, 256) = cellsGet freshWs.cells (65537, 256) := by
  obtain ⟨ws2, h1, h2, h3, _⟩ := c5_paste_clipping clipDemoApp freshWs rfl (by decide)
  refine ⟨ws2, h1, ?_, ?_⟩
  · have := h2 0 0 (by decide) (by decide) (by decide) (by decide)
    simpa using this
  · refine h3 65537 256 ?_
    rintro ⟨dr, hdr, dc, hdc, hrow, hcol, hR, hC⟩
    exact absurd hR (by decide)

/-- Claim C9: on a cell holding a non-empty formula, entering edit mode is
rejected — the mode is unchanged, the sheets (hence the stored value) and the
edit buffer are untouched, and the formula source is surfaced as a status
notice; and when such a cell's cached value is empty, `get_cell_display`
(for any external number formatter, at any column wide enough to show four
characters — all reachable widths are) yields the fixed pending placeholder
"=..." instead of the formula text. -/
theorem c9_formula_cell_readonly (fmt : String → String → String) (app : App)
    (ws : Worksheet) (r c : Nat)
    (hcur : app.cursor = (r, c))
    (hws : app.sheets.get? app.current_sheet_index = some ws)
    (hf : wsGetFormula ws r c ≠ "") :
    ((enter_edit_mode app).mode = app.mode ∧
     (enter_edit_mode app).sheets = app.sheets ∧
     (enter_edit_mode app).textarea = app.textarea ∧
     (enter_edit_mode app).status_message =
       some ("Formula (read-only): =" ++ wsGetFormula ws r c)) ∧
    (wsGetValue ws r c = "" → 4 ≤ get_column_width app c →
      get_cell_display fmt app c r = "=...") := by
  have hfc : is_formula_cell app app.cursor.2 app.cursor.1 = true := by
    rw [hcur]
    unfold is_formula_cell
    rw [hws]
    exact bne_iff_ne.mpr hf
  constructor
  · unfold enter_edit_mode
    rw [hfc, if_pos rfl, hws, hcur]
    exact ⟨rfl, rfl, rfl, rfl⟩
  · intro hv hw
    unfold get_cell_display
    rw [hws]
    dsimp only
    rw [if_pos hf, if_pos hv]
    have hlen : ("=..." : String).length = 4 := rfl
    rw [if_neg (by rw [hlen]; omega)]

/-- Witness for C9 at the concrete formula cell of `formulaWs`, with the
identity formatter. -/
theorem c9_formula_cell_readonly_witness :
    (enter_edit_mode formulaApp).mode = formulaApp.mode ∧
    (enter_edit_mode formulaApp).sheets = formulaApp.sheets ∧
    (enter_edit_mode formulaApp).status_message =
      some ("Formula (read-only): =" ++ wsGetFormula formulaWs 1 1) ∧
    get_cell_display (fun v _ => v) formulaApp 1 1 = "=..." := by
  have h := c9_formula_cell_readonly (fun v _ => v) formulaApp formulaWs 1 1 rfl rfl
    (by decide)
  exact ⟨h.1.1, h.1.2.1, h.1.2.2.2, h.2 rfl (by decide)⟩

/-- Claim C10: non-press key events are ignored entirely; every processed key
press clears the status message before dispatch, so the handler's result never
depends on the previous status message; and a press handled by no binding
(here the unbound `other` code, in every mode) leaves no status message. -/
theorem c10_keypress_clears_status :
    (∀ (save_ok : Bool) (save_err : String) (app : App) (k : KeyEvent),
      k.press = false → on_key save_ok save_err app k = app) ∧
    (∀ (save_ok : Bool) (save_err : String) (app : App) (k : KeyEvent) (m : Option String),
      k.press = true →
      on_key save_ok save_err { app with status_message := m } k =
        on_key save_ok save_err app k) ∧
    (∀ (save_ok : Bool) (save_err : String) (app : App) (ctrl shift : Bool),
      (on_key save_ok save_err app
        { code := KeyCode.other, press := true, ctrl := ctrl, shift := shift }).status_message =
        Option.none) := by
  refine ⟨?_, ?_, ?_⟩
  · intro so se app k hk
    unfold on_key
    rw [hk]
    rfl
  · intro so se app k m hk
    unfold on_key
    rw [hk]
    rfl
  · intro so se app ctrl shift
    unfold on_key
    cases hm : app.mode <;>
      simp [hm, view_key, sheet_select_key, edit_key, textarea_input]

/-- Witness for C10: a non-press event is a no-op, and a press gives the same
result whatever status message was pending. -/
theorem c10_keypress_clears_status_witness :
    on_key true "" freshApp ⟨KeyCode.esc, false, false, false⟩ = freshApp ∧
    on_key true "" { freshApp with status_message := some "hello" }
      ⟨KeyCode.esc, true, false, false⟩ =
      on_key true "" freshApp ⟨KeyCode.esc, true, false, false⟩ :=
  ⟨c10_keypress_clears_status.1 true "" freshApp _ rfl,
   c10_keypress_clears_status.2.1 true "" freshApp _ (some "hello") rfl⟩

end TermXlsx
